import Mathlib

/-!
Verification of the per-guild music queue/playback core of the
GOP3DiscordBOT repository.  The repository contains several near-duplicate
bot variants; the claims cite four of them, embedded below:

* `SlashA`  — the slash-command bot at the top of src/src/index.js
  (guildState map, playNext, play/add/loop/skip/stop handlers);
* `JsBot`   — the prefix-command JS bot (class MusicPlayer) in the second
  part of src/src/index.js;
* `PyBot`   — the Python bot in src/deploy-commands.js (bot.py: class
  MusicPlayer with an asyncio queue, a play lock and an idle task);
* `SlashD`  — the slash-command bot in src/unnamed/part_000 (playNext with
  a recursive failure retry).

State is embedded as records of the mutable fields each variant owns, and
every externally visible call to the voice sink, the timer or the
announcement channel is recorded as an `Eff` emitted by the transition.
The asyncio/FIFO queues are embedded as `List Track` with head = next
element to be dequeued.
-/

/-- Track value type.  All variants carry a title, a canonical page URL
(slash variants only keep one URL field, embedded here as `url`), and the
requester tag.  Immutable once created. -/
structure Track where
  title : String
  url : String
  requestedBy : String
deriving DecidableEq, Repr

/-- Externally visible effects emitted by a transition: streaming a handle
into the voice sink, stopping the sink, arming the single-shot idle
timer (delay in seconds), disconnecting, a best-effort announcement
(console log or channel message), and a persistence write (jsonbinPut or
saveQueues in the slash variants). -/
inductive Eff where
  | streamTrack (t : Track)
  | stopSink
  | armIdleTimer (delay : Nat)
  | disconnectSink
  | announce (msg : String)
  | persist
deriving DecidableEq, Repr

namespace SlashA

/-- Per-guild state of the slash bot at the top of src/src/index.js:
`{ queue: [], loop: false, current: null, player, connection }`.
The player/connection handles are embedded only through the actions a
transition emits. -/
structure GuildState where
  queue : List Track
  loop : Bool
  current : Option Track
deriving DecidableEq, Repr

/-- playNext (src/src/index.js lines 75-97): if `state.loop && state.current`
re-stream the current track and return; otherwise shift the queue head; if
none, clear `current` and persist (no idle timer exists in this variant);
else set `current` to the shifted head, stream it and persist. -/
def playNext (s : GuildState) : GuildState × List Eff :=
  match s.loop, s.current with
  | true, some t => (s, [Eff.streamTrack t])
  | _, _ =>
    match s.queue with
    | [] => ({ s with current := none }, [Eff.persist])
    | next :: rest =>
        ({ s with queue := rest, current := some next },
          [Eff.streamTrack next, Eff.persist])

end SlashA

namespace JsBot

/-- Per-guild state of the prefix-command JS MusicPlayer
(src/src/index.js lines 289-455): queue array, current track, loopCurrent
flag, plus the observable status of the audio player
(`player.state.status === Playing`) and whether a live voice connection
exists (`getVoiceConnection(guild.id)` is non-null). -/
structure MusicPlayer where
  queue : List Track
  current : Option Track
  loopCurrent : Bool
  playing : Bool
  connected : Bool
deriving DecidableEq, Repr

/-- onTrackEnd, success path (`_onTrackEnd`, src/src/index.js lines
369-396, with `_playTrack` succeeding): if `loopCurrent && current`,
re-stream `current`; if the queue is empty, clear `current` and arm the
15-second idle-disconnect `setTimeout`; else shift the head into `current`
and stream it. -/
def onTrackEnd (s : MusicPlayer) : MusicPlayer × List Eff :=
  match s.current, s.loopCurrent with
  | some t, true => ({ s with playing := true }, [Eff.streamTrack t])
  | _, _ =>
    match s.queue with
    | [] =>
        ({ s with current := none, playing := false }, [Eff.armIdleTimer 15])
    | next :: rest =>
        ({ s with queue := rest, current := some next, playing := true },
          [Eff.streamTrack next])

/-- onTrackEnd together with the `_playTrack` failure path
(src/src/index.js lines 398-417): `_playTrack` catches a streaming error,
logs it and awaits `_onTrackEnd()` again with the failing track still in
`current`.  `fails t` says whether streaming `t` throws.  The recursion of
the source is not structurally bounded (with `loopCurrent` set, a failing
`current` is retried forever), so the embedding takes fuel and returns
`none` when the source would recurse beyond it. -/
def onTrackEndF (fails : Track → Bool) : Nat → MusicPlayer → Option (MusicPlayer × List Eff)
  | 0, _ => none
  | fuel + 1, s =>
    match s.current, s.loopCurrent with
    | some t, true =>
        if fails t then
          (onTrackEndF fails fuel s).map
            (fun r => (r.1, Eff.announce "Error playing track" :: r.2))
        else some ({ s with playing := true }, [Eff.streamTrack t])
    | _, _ =>
      match s.queue with
      | [] =>
          some ({ s with current := none, playing := false }, [Eff.armIdleTimer 15])
      | next :: rest =>
          let s1 := { s with queue := rest, current := some next }
          if fails next then
            (onTrackEndF fails fuel s1).map
              (fun r => (r.1, Eff.announce "Error playing track" :: r.2))
          else some ({ s1 with playing := true }, [Eff.streamTrack next])

/-- skip (src/src/index.js lines 450-454) composed with the track-end it
induces: `player.stop()` moves the player to Idle, whose stateChange
handler runs `_onTrackEnd` (success path); skipping while not playing does
nothing. -/
def skipThenEnd (s : MusicPlayer) : MusicPlayer × List Eff :=
  if s.playing then
    let r := onTrackEnd { s with playing := false }
    (r.1, Eff.stopSink :: r.2)
  else (s, [])

/-- addTrack (src/src/index.js lines 419-437): ensureVoice joins or moves
(embedded: `connected := true`) and throws when the member is in no voice
channel, before any state is touched.  With `playNow` while playing, the
track is unshifted to the queue head and the player stopped (the induced
track-end is a separate transition); otherwise the track is pushed to the
tail and, when nothing is playing, `_onTrackEnd` starts playback. -/
def addTrack (inVoice : Bool) (t : Track) (playNow : Bool) (s : MusicPlayer) :
    Except String (MusicPlayer × List Eff) :=
  if inVoice then
    let s0 := { s with connected := true }
    if playNow ∧ s0.playing then
      Except.ok ({ s0 with queue := t :: s0.queue }, [Eff.stopSink])
    else
      let s1 := { s0 with queue := s0.queue ++ [t] }
      if s1.playing then Except.ok (s1, [])
      else Except.ok (onTrackEnd s1)
  else Except.error "User not in voice channel"

/-- stopAndClear (src/src/index.js lines 439-448): clear `loopCurrent` and
the queue, call `player.stop()` — when the player was playing this fires
the Idle stateChange handler, i.e. `_onTrackEnd` on the already cleared
queue — destroy the connection when one exists, and clear `current`.  The
idle `setTimeout` of this variant holds no handle and is never
cancelled. -/
def stopAndClear (s : MusicPlayer) : MusicPlayer × List Eff :=
  let s1 := { s with loopCurrent := false, queue := ([] : List Track) }
  let r :=
    if s1.playing then
      let e := onTrackEnd { s1 with playing := false }
      (e.1, Eff.stopSink :: e.2)
    else (s1, [Eff.stopSink])
  let r2 :=
    if r.1.connected then
      ({ r.1 with connected := false }, r.2 ++ [Eff.disconnectSink])
    else (r.1, r.2)
  ({ r2.1 with current := none }, r2.2)

/-- The `?loop` prefix command handler (src/src/index.js lines 595-603):
rejected with a message when no current track exists, otherwise flips
`loopCurrent`. -/
def loopCommand (s : MusicPlayer) : MusicPlayer × List Eff :=
  match s.current with
  | none => (s, [Eff.announce "No track is currently playing to loop."])
  | some _ =>
      ({ s with loopCurrent := !s.loopCurrent },
        [Eff.announce "Looping toggled for the current track."])

end JsBot

namespace PyBot

/-- Per-guild state of the Python MusicPlayer (src/deploy-commands.js,
bot.py lines 72-219): the asyncio FIFO queue, the current track, the
loop flag, whether a connected voice client exists
(`self.voice_client is not None and self.voice_client.is_connected()`),
whether it is playing (`self.voice_client.is_playing()`), and whether a
pending (not yet finished) `_idle_task` exists. -/
structure MusicPlayer where
  queue : List Track
  current : Option Track
  loop_current : Bool
  voice_connected : Bool
  playing : Bool
  idle_task_armed : Bool
deriving DecidableEq, Repr

/-- ensure_voice (bot.py lines 85-97): when the author is in no voice
channel a message is sent and `False` is returned, with no state change;
otherwise the client connects or moves to the channel (embedded as
`voice_connected := true`). -/
def ensure_voice (inVoice : Bool) (s : MusicPlayer) :
    MusicPlayer × Bool × List Eff :=
  if inVoice then ({ s with voice_connected := true }, true, [])
  else (s, false, [Eff.announce "You must be in a voice channel to use that command."])

/-- play_next_internal (`_play_next_internal`, bot.py lines 99-137,
success path of `voice_client.play`): with loop on and a current track,
replay it; with an empty queue, clear `current` and create the
`_idle_disconnect` task unless one is already pending; otherwise dequeue
the head into `current`.  The chosen track is streamed only when a
connected voice client exists. -/
def play_next_internal (s : MusicPlayer) : MusicPlayer × List Eff :=
  match s.loop_current, s.current with
  | true, some t =>
      if s.voice_connected then ({ s with playing := true }, [Eff.streamTrack t])
      else (s, [])
  | _, _ =>
    match s.queue with
    | [] =>
        ({ s with current := none, idle_task_armed := true },
          if s.idle_task_armed then [] else [Eff.armIdleTimer 15])
    | t :: rest =>
        let s1 := { s with queue := rest, current := some t }
        if s1.voice_connected then ({ s1 with playing := true }, [Eff.streamTrack t])
        else (s1, [])

/-- idle_disconnect firing (`_idle_disconnect`, bot.py lines 159-168):
after the 15 second sleep, the client is disconnected and the reference
cleared exactly when a voice client exists, nothing is playing, the loop
flag is off and the queue is empty; in every case the task is finished
afterwards. -/
def idle_disconnect (s : MusicPlayer) : MusicPlayer × List Eff :=
  if s.voice_connected ∧ ¬s.playing ∧ ¬s.loop_current ∧ s.queue = [] then
    ({ s with voice_connected := false, idle_task_armed := false },
      [Eff.disconnectSink])
  else ({ s with idle_task_armed := false }, [])

/-- add_track (bot.py lines 170-194): calls ensure_voice (whose boolean
result it ignores).  With play_now while playing, the queue is rebuilt
with the new track first and the client stopped (the induced after
callback is a separate transition); otherwise the track is appended and,
when nothing is playing, `_play_next` runs (under the per-player lock). -/
def add_track (inVoice : Bool) (t : Track) (play_now : Bool) (s : MusicPlayer) :
    MusicPlayer × List Eff :=
  let r := ensure_voice inVoice s
  let s0 := r.1
  let pre := r.2.2
  if play_now ∧ s0.voice_connected ∧ s0.playing then
    ({ s0 with queue := t :: s0.queue }, pre ++ [Eff.stopSink])
  else
    let s1 := { s0 with queue := s0.queue ++ [t] }
    if s1.voice_connected ∧ s1.playing then (s1, pre)
    else
      let r2 := play_next_internal s1
      (r2.1, pre ++ r2.2)

/-- stop_and_clear (bot.py lines 196-214): clears the loop flag, drains
the queue, and when a voice client exists stops it, disconnects and
clears the reference; `current` is cleared last.  The `_idle_task` field
is not touched. -/
def stop_and_clear (s : MusicPlayer) : MusicPlayer × List Eff :=
  let s1 := { s with loop_current := false, queue := ([] : List Track) }
  if s1.voice_connected then
    ({ s1 with playing := false, voice_connected := false, current := none },
      [Eff.stopSink, Eff.disconnectSink])
  else ({ s1 with current := none }, [])

/-- skip_current (bot.py lines 216-219) composed with the after callback
it induces: `voice_client.stop()` fires the after callback, which
schedules `_play_next`; skipping while not playing does nothing. -/
def skip_current (s : MusicPlayer) : MusicPlayer × List Eff :=
  if s.voice_connected ∧ s.playing then
    let r := play_next_internal { s with playing := false }
    (r.1, Eff.stopSink :: r.2)
  else (s, [])

/-- cmd_play (bot.py lines 338-352): rejects a requester who is in no
voice channel before resolving or touching any state; a failed extraction
is announced without an enqueue; otherwise add_track with play_now. -/
def cmd_play (inVoice : Bool) (resolved : Option Track) (s : MusicPlayer) :
    MusicPlayer × List Eff :=
  if inVoice then
    match resolved with
    | none => (s, [Eff.announce "Could not extract audio from that URL."])
    | some track =>
        let r := add_track true track true s
        (r.1, r.2 ++ [Eff.announce "Will play next."])
  else (s, [Eff.announce "You must be in a voice channel to use ?play."])

/-- cmd_add (bot.py lines 354-367): same guard order as cmd_play, with
play_now off. -/
def cmd_add (inVoice : Bool) (resolved : Option Track) (s : MusicPlayer) :
    MusicPlayer × List Eff :=
  if inVoice then
    match resolved with
    | none => (s, [Eff.announce "Could not extract audio from that URL."])
    | some track =>
        let r := add_track true track false s
        (r.1, r.2 ++ [Eff.announce "Added to queue."])
  else (s, [Eff.announce "You must be in a voice channel to use ?add."])

/-- cmd_loop (bot.py lines 379-387): rejected with a message when no
current track exists, otherwise flips the loop flag. -/
def cmd_loop (s : MusicPlayer) : MusicPlayer × List Eff :=
  match s.current with
  | none => (s, [Eff.announce "No track is currently playing to loop."])
  | some _ =>
      ({ s with loop_current := !s.loop_current },
        [Eff.announce "Looping toggled for the current track."])

end PyBot

namespace SlashD

/-- Per-guild state of the slash bot in src/unnamed/part_000
(`{ queue, player, connection, loop, current }`). -/
structure GuildState where
  queue : List Track
  loop : Bool
  current : Option Track
  connected : Bool
deriving DecidableEq, Repr

/-- The queue-draining part of playNext (src/unnamed/part_000 lines
160-181): shift the head; when the queue is exhausted clear `current` and
persist; on a streaming failure warn, clear `current` and recurse (the
recursion re-enters playNext with `current = null`, so it lands back
here).  Returns the final `current`, the remaining queue and the emitted
effects. -/
def drain (fails : Track → Bool) : List Track → Option Track × List Track × List Eff
  | [] => (none, [], [Eff.persist])
  | next :: rest =>
      if fails next then
        let r := drain fails rest
        (r.1, r.2.1, Eff.announce "play error" :: r.2.2)
      else (some next, rest, [Eff.streamTrack next, Eff.persist])

/-- playNext (src/unnamed/part_000 lines 144-182): with loop on and a
current track, replay it; when that replay fails, warn, clear `current`
and fall through to the queue drain; otherwise drain the queue. -/
def playNext (fails : Track → Bool) (s : GuildState) : GuildState × List Eff :=
  match s.loop, s.current with
  | true, some t =>
      if fails t then
        let r := drain fails s.queue
        ({ s with current := r.1, queue := r.2.1 },
          Eff.announce "loop playback failed" :: r.2.2)
      else (s, [Eff.streamTrack t])
  | _, _ =>
      let r := drain fails s.queue
      ({ s with current := r.1, queue := r.2.1 }, r.2.2)

end SlashD

/-- Iterate a transition, collecting the emitted effects (used for the
repeated natural track-end events of the loop replay claim). -/
def iterTrans {σ : Type} (f : σ → σ × List Eff) : Nat → σ → σ × List Eff
  | 0, s => (s, [])
  | n + 1, s =>
      let r := f s
      let r2 := iterTrans f n r.1
      (r2.1, r.2 ++ r2.2)

/-- Concrete track fixture A used in witnesses and counterexamples. -/
def tA : Track := ⟨"A", "urlA", "alice"⟩

/-- Concrete track fixture B. -/
def tB : Track := ⟨"B", "urlB", "bob"⟩

/-- Concrete track fixture C. -/
def tC : Track := ⟨"C", "urlC", "carol"⟩

/-- Concrete track fixture T (the PlayNow insert). -/
def tT : Track := ⟨"T", "urlT", "tina"⟩

/-- A streaming-failure oracle failing exactly on the track titled A. -/
def failsA : Track → Bool := fun t => t.title == "A"

/-- C1 counterexample: in the slash-command variant, the advance
transition on an empty queue (loop off) clears current and returns after
the persistence write only — no idle-disconnect timer is armed, contrary
to the claim that every variant arms the timer when idling. -/
theorem slash_advance_empty_queue_arms_no_timer :
    (SlashA.playNext ⟨[], false, some tA⟩).1.current = none ∧
    (SlashA.playNext ⟨[], false, some tA⟩).2 = [Eff.persist] ∧
    Eff.armIdleTimer 15 ∉ (SlashA.playNext ⟨[], false, some tA⟩).2 := by
  refine ⟨rfl, rfl, ?_⟩
  decide

/-- C1 (amended): one advance transition, when loop is off or current is
empty, pops exactly the head of the queue into current and streams it,
leaving the rest of the queue untouched in order; on an empty queue it
clears current and goes Idle, arming the idle-disconnect task in the
Python player (which has one), while the slash variant playNext idles
without arming any timer. -/
theorem advance_pops_head_and_arms_idle :
    (∀ (s : PyBot.MusicPlayer) (t : Track) (rest : List Track),
        s.loop_current = false ∨ s.current = none →
        s.voice_connected = true →
        s.queue = t :: rest →
        PyBot.play_next_internal s =
          ({ s with queue := rest, current := some t, playing := true },
            [Eff.streamTrack t])) ∧
    (∀ (s : PyBot.MusicPlayer),
        s.loop_current = false ∨ s.current = none →
        s.queue = [] →
        PyBot.play_next_internal s =
          ({ s with current := none, idle_task_armed := true },
            if s.idle_task_armed then [] else [Eff.armIdleTimer 15])) ∧
    (∀ (s : SlashA.GuildState) (t : Track) (rest : List Track),
        s.loop = false ∨ s.current = none →
        s.queue = t :: rest →
        SlashA.playNext s =
          ({ s with queue := rest, current := some t },
            [Eff.streamTrack t, Eff.persist])) ∧
    (∀ (s : SlashA.GuildState),
        s.loop = false ∨ s.current = none →
        s.queue = [] →
        SlashA.playNext s = ({ s with current := none }, [Eff.persist])) := by
  refine ⟨?_, ?_, ?_, ?_⟩
  · rintro ⟨q, c, lc, vc, pl, ia⟩ t rest h hv hq
    cases c <;> cases lc <;> simp_all [PyBot.play_next_internal]
  · rintro ⟨q, c, lc, vc, pl, ia⟩ h hq
    cases c <;> cases lc <;> simp_all [PyBot.play_next_internal]
  · rintro ⟨q, lp, c⟩ t rest h hq
    cases c <;> cases lp <;> simp_all [SlashA.playNext]
  · rintro ⟨q, lp, c⟩ h hq
    cases c <;> cases lp <;> simp_all [SlashA.playNext]

/-- C1 witness: the amended advance theorem applied at concrete states. -/
theorem advance_pops_head_and_arms_idle_w :
    PyBot.play_next_internal ⟨[tB], some tA, false, true, true, false⟩ =
      (⟨[], some tB, false, true, true, false⟩, [Eff.streamTrack tB]) ∧
    SlashA.playNext ⟨[], false, none⟩ = (⟨[], false, none⟩, [Eff.persist]) := by
  constructor
  · exact advance_pops_head_and_arms_idle.1
      ⟨[tB], some tA, false, true, true, false⟩ tB [] (Or.inl rfl) rfl rfl
  · exact advance_pops_head_and_arms_idle.2.2.2 ⟨[], false, none⟩ (Or.inl rfl) rfl

/-- Helper for the loop replay claim: iterating the slash playNext with
loop on and a current track leaves the state literally unchanged and
streams the current track once per iteration. -/
theorem iter_playNext_loop (n : Nat) :
    ∀ (s : SlashA.GuildState) (t : Track),
      s.loop = true → s.current = some t →
      iterTrans SlashA.playNext n s = (s, List.replicate n (Eff.streamTrack t)) := by
  induction n with
  | zero => intro s t h1 h2; rfl
  | succ n ih =>
      rintro ⟨q, lp, c⟩ t h1 h2
      simp_all only []
      have hstep : SlashA.playNext ⟨q, true, some t⟩ =
          (⟨q, true, some t⟩, [Eff.streamTrack t]) := rfl
      have ih2 := ih ⟨q, true, some t⟩ t rfl rfl
      simp [iterTrans, hstep, ih2, List.replicate_succ]

/-- Helper for the loop replay claim, Python player: iterating
play_next_internal with loop on, a current track and a connected client
keeps queue and current unchanged and streams the current track once per
iteration. -/
theorem iter_play_next_internal_loop (n : Nat) :
    ∀ (s : PyBot.MusicPlayer) (t : Track),
      s.loop_current = true → s.current = some t → s.voice_connected = true →
      (iterTrans PyBot.play_next_internal n s).1.queue = s.queue ∧
      (iterTrans PyBot.play_next_internal n s).1.current = some t ∧
      (iterTrans PyBot.play_next_internal n s).2 =
        List.replicate n (Eff.streamTrack t) := by
  induction n with
  | zero => intro s t h1 h2 h3; exact ⟨rfl, h2, rfl⟩
  | succ n ih =>
      rintro ⟨q, c, lc, vc, pl, ia⟩ t h1 h2 h3
      simp_all only []
      have hstep : PyBot.play_next_internal ⟨q, some t, true, true, pl, ia⟩ =
          (⟨q, some t, true, true, true, ia⟩, [Eff.streamTrack t]) := rfl
      have ih2 := ih ⟨q, some t, true, true, true, ia⟩ t rfl rfl rfl
      simp only [iterTrans, hstep]
      exact ⟨ih2.1, ih2.2.1, by simp [ih2.2.2, List.replicate_succ]⟩

/-- C3: with loopCurrent true and current = T, any number of consecutive
natural track-end transitions re-streams T unchanged and leaves the queue
exactly as it was — for every queue contents, in both the slash variant
playNext and the Python player. -/
theorem loop_replay_never_consumes_queue :
    (∀ (n : Nat) (s : SlashA.GuildState) (t : Track),
        s.loop = true → s.current = some t →
        iterTrans SlashA.playNext n s = (s, List.replicate n (Eff.streamTrack t))) ∧
    (∀ (n : Nat) (s : PyBot.MusicPlayer) (t : Track),
        s.loop_current = true → s.current = some t → s.voice_connected = true →
        (iterTrans PyBot.play_next_internal n s).1.queue = s.queue ∧
        (iterTrans PyBot.play_next_internal n s).1.current = some t ∧
        (iterTrans PyBot.play_next_internal n s).2 =
          List.replicate n (Eff.streamTrack t)) :=
  ⟨fun n s t h1 h2 => iter_playNext_loop n s t h1 h2,
   fun n s t h1 h2 h3 => iter_play_next_internal_loop n s t h1 h2 h3⟩

/-- C3 witness: three natural track-end events with loop on and
queue [tB] replay tA three times and leave the queue untouched. -/
theorem loop_replay_never_consumes_queue_w :
    iterTrans SlashA.playNext 3 ⟨[tB], true, some tA⟩ =
      (⟨[tB], true, some tA⟩,
        [Eff.streamTrack tA, Eff.streamTrack tA, Eff.streamTrack tA]) ∧
    (iterTrans PyBot.play_next_internal 3 ⟨[tB], some tA, true, true, true, false⟩).1.queue =
      [tB] := by
  constructor
  · have h := loop_replay_never_consumes_queue.1 3 ⟨[tB], true, some tA⟩ tA rfl rfl
    simpa using h
  · exact (loop_replay_never_consumes_queue.2 3
      ⟨[tB], some tA, true, true, true, false⟩ tA rfl rfl rfl).1

/-- C4 counterexample: skipping while loopCurrent is true does not
progress past the current track.  With current = tA, queue = [tB], skip
stops the sink, and the induced transition streams tA again: current and
queue are exactly as before, so the loop replay is not bypassed and skip
is a progression no-op while looping. -/
theorem skip_with_loop_replays_current :
    PyBot.skip_current ⟨[tB], some tA, true, true, true, false⟩ =
      (⟨[tB], some tA, true, true, true, false⟩,
        [Eff.stopSink, Eff.streamTrack tA]) := rfl

/-- C4 (amended): skip stops the current stream and the induced transition
follows the ordinary advance semantics — with loopCurrent false it
progresses to the queue head (or Idle on an empty queue), but with
loopCurrent true the current track is replayed unchanged, so skip does not
bypass the loop replay.  Stated for the Python player skip_current and the
prefix JS player skip. -/
theorem skip_follows_advance_semantics :
    (∀ (s : PyBot.MusicPlayer) (t : Track),
        s.voice_connected = true → s.playing = true →
        s.loop_current = true → s.current = some t →
        PyBot.skip_current s = (s, [Eff.stopSink, Eff.streamTrack t])) ∧
    (∀ (s : PyBot.MusicPlayer),
        s.voice_connected = true → s.playing = true → s.loop_current = false →
        (PyBot.skip_current s).1.current = s.queue.head? ∧
        (PyBot.skip_current s).1.queue = s.queue.tail) ∧
    (∀ (s : JsBot.MusicPlayer) (t : Track),
        s.playing = true → s.loopCurrent = true → s.current = some t →
        JsBot.skipThenEnd s = (s, [Eff.stopSink, Eff.streamTrack t])) ∧
    (∀ (s : JsBot.MusicPlayer),
        s.playing = true → s.loopCurrent = false →
        (JsBot.skipThenEnd s).1.current = s.queue.head? ∧
        (JsBot.skipThenEnd s).1.queue = s.queue.tail) := by
  refine ⟨?_, ?_, ?_, ?_⟩
  · rintro ⟨q, c, lc, vc, pl, ia⟩ t hv hp hl hc
    simp_all [PyBot.skip_current, PyBot.play_next_internal]
  · rintro ⟨q, c, lc, vc, pl, ia⟩ hv hp hl
    cases c <;> cases q <;> simp_all [PyBot.skip_current, PyBot.play_next_internal]
  · rintro ⟨q, c, lc, pl, cn⟩ t hp hl hc
    simp_all [JsBot.skipThenEnd, JsBot.onTrackEnd]
  · rintro ⟨q, c, lc, pl, cn⟩ hp hl
    cases c <;> cases q <;> simp_all [JsBot.skipThenEnd, JsBot.onTrackEnd]

/-- C4 witness: the amended skip theorem at concrete states — skip with
loop off pops tB; skip with loop on in the JS player replays tA. -/
theorem skip_follows_advance_semantics_w :
    (PyBot.skip_current ⟨[tB], some tA, false, true, true, false⟩).1.current = some tB ∧
    JsBot.skipThenEnd ⟨[tB], some tA, true, true, true⟩ =
      (⟨[tB], some tA, true, true, true⟩, [Eff.stopSink, Eff.streamTrack tA]) := by
  constructor
  · have h := skip_follows_advance_semantics.2.1
      ⟨[tB], some tA, false, true, true, false⟩ rfl rfl rfl
    simpa using h.1
  · exact skip_follows_advance_semantics.2.2.1
      ⟨[tB], some tA, true, true, true⟩ tA rfl rfl rfl

/-- C5 counterexample: PlayNow while loopCurrent is true does not yield
current = T.  With current = tA streaming and queue = [tB, tC], addTrack
inserts tT at the head and stops the sink, but the induced track-end
replays tA: afterwards current is still tA and the queue is [tT, tB, tC],
not current = tT with queue = [tB, tC] as the claim states for every such
player state. -/
theorem play_now_with_loop_keeps_old_current :
    JsBot.addTrack true tT true ⟨[tB, tC], some tA, true, true, true⟩ =
      Except.ok (⟨[tT, tB, tC], some tA, true, true, true⟩, [Eff.stopSink]) ∧
    JsBot.onTrackEnd ⟨[tT, tB, tC], some tA, true, false, true⟩ =
      (⟨[tT, tB, tC], some tA, true, true, true⟩, [Eff.streamTrack tA]) :=
  ⟨rfl, rfl⟩

/-- C5 (amended): with loopCurrent false, enqueue with PlayNow while a
track is streaming pushes the new track to the head of the queue ahead of
all pending tracks and stops the sink (the old current is not removed
mid-stream), and the induced track-end transition pops the new track into
current with the pending queue intact and the old current discarded, never
re-enqueued; from Idle (nothing playing, no current, empty queue) PlayNow
invokes advance immediately and streams the track. -/
theorem play_now_head_insert_no_loop :
    (∀ (s : JsBot.MusicPlayer) (t : Track),
        s.playing = true → s.loopCurrent = false →
        JsBot.addTrack true t true s =
          Except.ok ({ s with connected := true, queue := t :: s.queue },
            [Eff.stopSink]) ∧
        JsBot.onTrackEnd
            { s with connected := true, queue := t :: s.queue, playing := false } =
          ({ s with connected := true, current := some t, playing := true },
            [Eff.streamTrack t])) ∧
    (∀ (s : JsBot.MusicPlayer) (t : Track),
        s.playing = false → s.current = none → s.queue = [] →
        JsBot.addTrack true t true s =
          Except.ok ({ s with connected := true, current := some t, playing := true },
            [Eff.streamTrack t])) := by
  constructor
  · rintro ⟨q, c, lc, pl, cn⟩ t hp hl
    cases c <;> simp_all [JsBot.addTrack, JsBot.onTrackEnd]
  · rintro ⟨q, c, lc, pl, cn⟩ t hp hc hq
    cases lc <;> simp_all [JsBot.addTrack, JsBot.onTrackEnd]

/-- C5 witness: the amended PlayNow theorem at a concrete state with
current = tA, queue = [tB, tC] and loop off: the insert puts tT at the
head, and the induced transition yields current = tT, queue = [tB, tC]. -/
theorem play_now_head_insert_no_loop_w :
    JsBot.addTrack true tT true ⟨[tB, tC], some tA, false, true, true⟩ =
      Except.ok (⟨[tT, tB, tC], some tA, false, true, true⟩, [Eff.stopSink]) ∧
    JsBot.onTrackEnd ⟨[tT, tB, tC], some tA, false, false, true⟩ =
      (⟨[tB, tC], some tT, false, true, true⟩, [Eff.streamTrack tT]) := by
  have h := play_now_head_insert_no_loop.1 ⟨[tB, tC], some tA, false, true, true⟩ tT rfl rfl
  exact ⟨h.1, h.2⟩

/-- Helper: the drain part of the SlashD playNext discards exactly the
maximal failing front of the queue (announcing each failure), lands on the
first non-failing element (or none), and leaves the rest untouched. -/
theorem drain_eq (fails : Track → Bool) (l : List Track) :
    SlashD.drain fails l =
      ((l.dropWhile fails).head?, (l.dropWhile fails).tail,
        (l.takeWhile fails).map (fun _ => Eff.announce "play error") ++
          match (l.dropWhile fails).head? with
          | some t => [Eff.streamTrack t, Eff.persist]
          | none => [Eff.persist]) := by
  induction l with
  | nil => rfl
  | cons next rest ih =>
      cases h : fails next <;>
        simp [SlashD.drain, List.dropWhile_cons, List.takeWhile_cons, h, ih]

/-- Helper: in the prefix JS player with loop off, the fueled retry
recursion terminates within queue length + 1 steps, discarding and
announcing every failing popped track and ending on the first surviving
one (or Idle with the timer armed). -/
theorem onTrackEndF_no_loop (fails : Track → Bool) :
    ∀ (l : List Track) (fuel : Nat) (c : Option Track) (pl cn : Bool),
      l.length < fuel →
      JsBot.onTrackEndF fails fuel ⟨l, c, false, pl, cn⟩ =
        some (⟨(l.dropWhile fails).tail, (l.dropWhile fails).head?,
               false, ((l.dropWhile fails).head?).isSome, cn⟩,
          (l.takeWhile fails).map (fun _ => Eff.announce "Error playing track") ++
            match (l.dropWhile fails).head? with
            | some t => [Eff.streamTrack t]
            | none => [Eff.armIdleTimer 15]) := by
  intro l
  induction l with
  | nil =>
      intro fuel c pl cn h3
      cases fuel with
      | zero => simp at h3
      | succ k => cases c <;> rfl
  | cons next rest ih =>
      intro fuel c pl cn h3
      cases fuel with
      | zero => simp at h3
      | succ k =>
          have h3r : rest.length < k := by
            simp only [List.length_cons] at h3
            omega
          cases h : fails next
          · cases c <;>
              simp [JsBot.onTrackEndF, h, List.dropWhile_cons, List.takeWhile_cons]
          · have hrec := ih k (some next) pl cn h3r
            cases c <;>
              simp [JsBot.onTrackEndF, h, hrec, List.dropWhile_cons,
                List.takeWhile_cons]

/-- C6 counterexample: in the prefix JS player with loopCurrent true, a
freshly popped failing track is retried without bound.  Queue [tA] has
length 1 and tA fails; the claim bounds the retries by the queue length,
yet even 50 advance steps do not terminate, because the failing track sits
in current and the loop branch retries it forever. -/
theorem failing_track_with_loop_retries_unboundedly :
    JsBot.onTrackEndF failsA 50 ⟨[tA], none, true, false, true⟩ = none := rfl

/-- C6 (amended): an immediately failing popped track is announced and
discarded (never re-enqueued) and the player advances again, bounded by
the queue length: this holds unconditionally in the SlashD variant
playNext, and in the prefix JS player whenever loopCurrent is false
(queue length + 1 steps always suffice); with loopCurrent true the prefix
JS player retries the failing current track without bound (see the
counterexample).  The end state is the first surviving track, or Idle when
every track fails. -/
theorem failure_skip_forward_bounded :
    (∀ (fails : Track → Bool) (s : SlashD.GuildState),
        s.loop = false →
        SlashD.playNext fails s =
          ({ s with current := (s.queue.dropWhile fails).head?,
                    queue := (s.queue.dropWhile fails).tail },
            (s.queue.takeWhile fails).map (fun _ => Eff.announce "play error") ++
              match (s.queue.dropWhile fails).head? with
              | some t => [Eff.streamTrack t, Eff.persist]
              | none => [Eff.persist])) ∧
    (∀ (fails : Track → Bool) (s : JsBot.MusicPlayer) (fuel : Nat),
        s.loopCurrent = false → s.queue.length < fuel →
        JsBot.onTrackEndF fails fuel s =
          some ({ s with queue := (s.queue.dropWhile fails).tail,
                         current := (s.queue.dropWhile fails).head?,
                         playing := ((s.queue.dropWhile fails).head?).isSome },
            (s.queue.takeWhile fails).map
                (fun _ => Eff.announce "Error playing track") ++
              match (s.queue.dropWhile fails).head? with
              | some t => [Eff.streamTrack t]
              | none => [Eff.armIdleTimer 15])) := by
  constructor
  · rintro fails ⟨q, lp, c, cn⟩ hl
    cases c <;> simp_all [SlashD.playNext, drain_eq]
  · rintro fails ⟨q, c, lc, pl, cn⟩ fuel hl hf
    cases lc
    · have h := onTrackEndF_no_loop fails q fuel c pl cn (by simpa using hf)
      simpa using h
    · simp at hl

/-- C6 witness: for queue [tA, tB, tC] with tA failing, both variants end
with current = tB and the failure announced. -/
theorem failure_skip_forward_bounded_w :
    (SlashD.playNext failsA ⟨[tA, tB, tC], false, none, true⟩).1.current = some tB ∧
    JsBot.onTrackEndF failsA 4 ⟨[tA, tB, tC], none, false, false, true⟩ =
      some (⟨[tC], some tB, false, true, true⟩,
        [Eff.announce "Error playing track", Eff.streamTrack tB]) := by
  constructor
  · rw [failure_skip_forward_bounded.1 failsA ⟨[tA, tB, tC], false, none, true⟩ rfl]
    decide
  · rw [failure_skip_forward_bounded.2 failsA
      ⟨[tA, tB, tC], none, false, false, true⟩ 4 rfl (by decide)]
    decide

/-- C7 counterexample: stop_and_clear does not cancel a pending idle
task.  From a reachable state with an armed idle task (idle after the last
track ended, client still connected), the state after stop_and_clear still
has the idle task pending, and the emitted effects are only the sink stop
and disconnect — no cancellation. -/
theorem stop_and_clear_leaves_idle_task_armed :
    (PyBot.stop_and_clear ⟨[], none, false, true, false, true⟩).1.idle_task_armed = true ∧
    (PyBot.stop_and_clear ⟨[], none, false, true, false, true⟩).2 =
      [Eff.stopSink, Eff.disconnectSink] := ⟨rfl, rfl⟩

/-- C7 (amended): stop_and_clear from any state empties the queue, clears
current, clears the loop flag and leaves the sink disconnected; it is
idempotent (a second call changes nothing and performs no sink calls) and
safe without a connected sink (no sink effects, state still cleared).  The
pending idle task is not cancelled, but firing it afterwards disconnects
nothing, because the voice reference is already cleared.  The JS prefix
player stopAndClear likewise always yields the fully cleared state. -/
theorem stop_and_clear_clears_state :
    (∀ (s : PyBot.MusicPlayer),
        (PyBot.stop_and_clear s).1.queue = [] ∧
        (PyBot.stop_and_clear s).1.current = none ∧
        (PyBot.stop_and_clear s).1.loop_current = false ∧
        (PyBot.stop_and_clear s).1.voice_connected = false ∧
        PyBot.stop_and_clear (PyBot.stop_and_clear s).1 =
          ((PyBot.stop_and_clear s).1, []) ∧
        PyBot.idle_disconnect (PyBot.stop_and_clear s).1 =
          ({ (PyBot.stop_and_clear s).1 with idle_task_armed := false }, [])) ∧
    (∀ (s : PyBot.MusicPlayer),
        s.voice_connected = false →
        PyBot.stop_and_clear s =
          ({ s with loop_current := false, queue := [], current := none }, [])) ∧
    (∀ (s : JsBot.MusicPlayer),
        (JsBot.stopAndClear s).1 = ⟨[], none, false, false, false⟩) := by
  refine ⟨?_, ?_, ?_⟩
  · rintro ⟨q, c, lc, vc, pl, ia⟩
    cases vc <;> simp_all [PyBot.stop_and_clear, PyBot.idle_disconnect]
  · rintro ⟨q, c, lc, vc, pl, ia⟩ hv
    simp_all [PyBot.stop_and_clear]
  · rintro ⟨q, c, lc, pl, cn⟩
    cases c <;> cases pl <;> cases cn <;>
      simp [JsBot.stopAndClear, JsBot.onTrackEnd]

/-- C7 witness: the amended stop theorem at concrete states — clearing
works with no sink connected, and from a playing state the queue ends
empty. -/
theorem stop_and_clear_clears_state_w :
    PyBot.stop_and_clear ⟨[tA], some tB, true, false, false, false⟩ =
      (⟨[], none, false, false, false, false⟩, []) ∧
    (PyBot.stop_and_clear ⟨[tA], some tB, true, true, true, true⟩).1.queue = [] := by
  constructor
  · have h := stop_and_clear_clears_state.2.1
      ⟨[tA], some tB, true, false, false, false⟩ rfl
    simpa using h
  · exact (stop_and_clear_clears_state.1 ⟨[tA], some tB, true, true, true, true⟩).1

/-- C8: advance on an empty queue with loop off leaves an armed single-shot
idle task of fixed 15 second delay (emitting the arm effect when no task
was pending) and clears current, in both the Python player and the prefix
JS player; when the task fires, the sink is disconnected and the reference
cleared exactly when nothing is playing, the loop flag is off and the
queue is still empty; an enqueue that starts playback before the firing
prevents the disconnect. -/
theorem idle_timer_arm_and_fire :
    (∀ (s : PyBot.MusicPlayer),
        s.queue = [] → s.loop_current = false →
        (PyBot.play_next_internal s).1.idle_task_armed = true ∧
        (PyBot.play_next_internal s).1.current = none ∧
        (s.idle_task_armed = false →
          (PyBot.play_next_internal s).2 = [Eff.armIdleTimer 15])) ∧
    (∀ (s : JsBot.MusicPlayer),
        s.queue = [] → s.loopCurrent = false →
        JsBot.onTrackEnd s =
          ({ s with current := none, playing := false }, [Eff.armIdleTimer 15])) ∧
    (∀ (s : PyBot.MusicPlayer),
        s.voice_connected = true →
        (((PyBot.idle_disconnect s).2 = [Eff.disconnectSink] ∧
          (PyBot.idle_disconnect s).1.voice_connected = false) ↔
          (s.playing = false ∧ s.loop_current = false ∧ s.queue = []))) ∧
    (∀ (s : PyBot.MusicPlayer) (t : Track),
        s.voice_connected = true → s.playing = false → s.current = none →
        s.queue = [] →
        PyBot.add_track true t false s =
          ({ s with queue := [], current := some t, playing := true },
            [Eff.streamTrack t]) ∧
        PyBot.idle_disconnect
            { s with queue := [], current := some t, playing := true } =
          ({ s with queue := [], current := some t, playing := true,
                    idle_task_armed := false }, [])) := by
  refine ⟨?_, ?_, ?_, ?_⟩
  · rintro ⟨q, c, lc, vc, pl, ia⟩ hq hl
    cases c <;> simp_all [PyBot.play_next_internal]
  · rintro ⟨q, c, lc, pl, cn⟩ hq hl
    cases c <;> simp_all [JsBot.onTrackEnd]
  · rintro ⟨q, c, lc, vc, pl, ia⟩ hv
    cases pl <;> cases lc <;> cases q <;>
      simp_all [PyBot.idle_disconnect]
  · rintro ⟨q, c, lc, vc, pl, ia⟩ t hv hp hc hq
    cases lc <;>
      simp_all [PyBot.add_track, PyBot.ensure_voice, PyBot.play_next_internal,
        PyBot.idle_disconnect]

/-- C8 witness: arming on idle advance, firing when still idle, and the
prevention of the disconnect by an enqueue that started playback. -/
theorem idle_timer_arm_and_fire_w :
    (PyBot.play_next_internal ⟨[], some tA, false, true, false, false⟩).2 =
      [Eff.armIdleTimer 15] ∧
    (PyBot.idle_disconnect ⟨[], none, false, true, false, true⟩).2 =
      [Eff.disconnectSink] ∧
    (PyBot.idle_disconnect
        (PyBot.add_track true tT false ⟨[], none, false, true, false, true⟩).1).2 =
      [] := by
  refine ⟨?_, ?_, ?_⟩
  · exact (idle_timer_arm_and_fire.1 ⟨[], some tA, false, true, false, false⟩
      rfl rfl).2.2 rfl
  · exact ((idle_timer_arm_and_fire.2.2.1 ⟨[], none, false, true, false, true⟩
      rfl).mpr ⟨rfl, rfl, rfl⟩).1
  · have h := idle_timer_arm_and_fire.2.2.2 ⟨[], none, false, true, false, true⟩
      tT rfl rfl rfl rfl
    rw [h.1, h.2]

/-- C9: a play or add invocation by a requester who is in no voice channel
is rejected with the not-in-voice message before any resolution or
enqueue, and mutates nothing: the returned state is exactly the input
state (queue, current, loop flag and sink reference untouched) in the
Python command handlers, and the JS addTrack throws before touching any
state. -/
theorem not_in_voice_no_mutation :
    (∀ (resolved : Option Track) (s : PyBot.MusicPlayer),
        PyBot.cmd_play false resolved s =
          (s, [Eff.announce "You must be in a voice channel to use ?play."])) ∧
    (∀ (resolved : Option Track) (s : PyBot.MusicPlayer),
        PyBot.cmd_add false resolved s =
          (s, [Eff.announce "You must be in a voice channel to use ?add."])) ∧
    (∀ (t : Track) (playNow : Bool) (s : JsBot.MusicPlayer),
        JsBot.addTrack false t playNow s =
          Except.error "User not in voice channel") :=
  ⟨fun _ _ => rfl, fun _ _ => rfl, fun _ _ _ => rfl⟩

/-- C10: the loop toggle of the prefix-command variants requires a current
track: with current empty the command is rejected with a message and the
entire player state is unchanged, and the loop flag can change only when a
current track exists, in which case it is flipped and nothing else
moves. -/
theorem loop_toggle_requires_current :
    (∀ (s : PyBot.MusicPlayer), s.current = none →
        PyBot.cmd_loop s =
          (s, [Eff.announce "No track is currently playing to loop."])) ∧
    (∀ (s : PyBot.MusicPlayer),
        (PyBot.cmd_loop s).1.loop_current ≠ s.loop_current → s.current ≠ none) ∧
    (∀ (s : PyBot.MusicPlayer) (t : Track), s.current = some t →
        PyBot.cmd_loop s =
          ({ s with loop_current := !s.loop_current },
            [Eff.announce "Looping toggled for the current track."])) ∧
    (∀ (s : JsBot.MusicPlayer), s.current = none →
        JsBot.loopCommand s =
          (s, [Eff.announce "No track is currently playing to loop."])) ∧
    (∀ (s : JsBot.MusicPlayer) (t : Track), s.current = some t →
        JsBot.loopCommand s =
          ({ s with loopCurrent := !s.loopCurrent },
            [Eff.announce "Looping toggled for the current track."])) := by
  refine ⟨?_, ?_, ?_, ?_, ?_⟩
  · rintro ⟨q, c, lc, vc, pl, ia⟩ hc
    simp_all [PyBot.cmd_loop]
  · rintro ⟨q, c, lc, vc, pl, ia⟩ h
    cases c
    · exact absurd rfl h
    · simp
  · rintro ⟨q, c, lc, vc, pl, ia⟩ t hc
    simp_all [PyBot.cmd_loop]
  · rintro ⟨q, c, lc, pl, cn⟩ hc
    simp_all [JsBot.loopCommand]
  · rintro ⟨q, c, lc, pl, cn⟩ t hc
    simp_all [JsBot.loopCommand]

/-- C10 witness: the loop toggle rejected on an empty current with the
state unchanged, and flipped when a current track exists. -/
theorem loop_toggle_requires_current_w :
    PyBot.cmd_loop ⟨[tA], none, false, true, false, false⟩ =
      (⟨[tA], none, false, true, false, false⟩,
        [Eff.announce "No track is currently playing to loop."]) ∧
    JsBot.loopCommand ⟨[], some tA, false, true, true⟩ =
      (⟨[], some tA, true, true, true⟩,
        [Eff.announce "Looping toggled for the current track."]) := by
  constructor
  · exact loop_toggle_requires_current.1 ⟨[tA], none, false, true, false, false⟩ rfl
  · have h := loop_toggle_requires_current.2.2.2.2
      ⟨[], some tA, false, true, true⟩ tA rfl
    simpa using h
